import Mathlib

/-!
Formal model of the cross-file semantic core of an LPC language server.

The definitions below are shallow embeddings of the TypeScript sources:
`SourceContext` (parsing state, the reference mesh between source units,
reference counting, include-filename resolution, completion-candidate
merging) and `ArrowSymbol` (arrow-expression evaluation: remote call
versus struct member access).  External collaborators (the ANTLR parser,
the file system, the facade registry, the symbol-table library) are
abstracted as function parameters.  Unbounded source-level loops and
recursions (the mesh is allowed to be cyclic) are given explicit fuel;
`none` marks fuel exhaustion and never arises in the concrete runs used
by the theorems.
-/

/-- Diagnostic severity as used by the code (vscode DiagnosticSeverity,
restricted to the two levels the embedded code emits). -/
inductive Severity where
  | error
  | warning
deriving DecidableEq, Repr

/-- A diagnostic entry: message and severity.  Source ranges are dropped:
no embedded claim mentions them. -/
structure Diag where
  message : String
  severity : Severity
deriving DecidableEq, Repr

/-! ### Two-tier parse retry (SourceContext.parse, try/catch around
`this.parser.program()`) -/

/-- ANTLR prediction mode: the fast SLL mode used for the first run and
the exhaustive LL mode used for the retry. -/
inductive PredictionMode where
  | SLL
  | LL
deriving DecidableEq, Repr

/-- An exception escaping `parser.program()`: either the recognized
ambiguity-abort signal (ParseCancellationException) or any other
exception. -/
inductive ParseAbort where
  | cancellation
  | other
deriving DecidableEq, Repr

/-- SourceContext.parse, the try/catch around `this.parser.program()`:
run the parser in SLL mode; when that throws the cancellation signal,
reset and re-run the same input in LL mode; rethrow anything else.
`attempt` abstracts one full parser run (the tree is an abstract id). -/
def parseWithRetry (attempt : PredictionMode → Except ParseAbort Nat) :
    Except ParseAbort Nat :=
  match attempt PredictionMode.SLL with
  | Except.ok t => Except.ok t
  | Except.error ParseAbort.cancellation => attempt PredictionMode.LL
  | Except.error ParseAbort.other => Except.error ParseAbort.other

/-- A parser whose fast run aborts with the ambiguity signal and whose
exhaustive run produces tree 5. -/
def c9attemptA : PredictionMode → Except ParseAbort Nat
  | PredictionMode.SLL => Except.error ParseAbort.cancellation
  | PredictionMode.LL => Except.ok 5

/-- A parser whose fast run throws a non-cancellation exception. -/
def c9attemptB : PredictionMode → Except ParseAbort Nat
  | _ => Except.error ParseAbort.other

/-! ### Parse generation state (SourceContext.parse /
runSemanticAnalysisIfNeeded / getDiagnostics) -/

/-- External collaborators of one parse generation: the diagnostics the
lexer/parser error listeners record while parsing an input, the parse
tree built from it (abstract id), and the diagnostics the
SemanticListener walk appends for a tree. -/
structure ParseEnv where
  listenerDiags : String → List Diag
  treeOf : String → Nat
  semanticDiags : Nat → List Diag

/-- The per-SourceContext state the embedded claims are about: the
ordered diagnostics list, the semanticAnalysisDone flag, and the current
parse tree (none before the first parse). -/
structure ContextState where
  diagnostics : List Diag
  semanticAnalysisDone : Bool
  tree : Option Nat
deriving DecidableEq, Repr

/-- SourceContext.parse: resets the token source, clears
`this.diagnostics` (`length = 0`, then the error listeners repopulate it
during the run), resets `semanticAnalysisDone` to false and replaces the
tree wholesale.  The result is independent of the previous state. -/
def parse (env : ParseEnv) (input : String) (_s : ContextState) : ContextState :=
  { diagnostics := env.listenerDiags input
    semanticAnalysisDone := false
    tree := some (env.treeOf input) }

/-- SourceContext.runSemanticAnalysisIfNeeded: when the flag is unset and
a tree exists, set the flag and walk the tree with the SemanticListener,
which appends its diagnostics to `this.diagnostics`. -/
def runSemanticAnalysisIfNeeded (env : ParseEnv) (s : ContextState) : ContextState :=
  match s.tree with
  | some t =>
      if s.semanticAnalysisDone then s
      else { s with semanticAnalysisDone := true
                    diagnostics := s.diagnostics ++ env.semanticDiags t }
  | none => s

/-- SourceContext.getDiagnostics: trigger lazy analysis, then return the
diagnostics list (paired here with the updated state). -/
def getDiagnostics (env : ParseEnv) (s : ContextState) : List Diag × ContextState :=
  let s1 := runSemanticAnalysisIfNeeded env s
  (s1.diagnostics, s1)

/-! ### Completion candidate merge
(SourceContext.getCodeCompletionCandidates, final forEach over the
awaited symbol lists) -/

/-- One step of the merge: a symbol name is pushed unless it is "EOF" or
already registered in the `names` set (first occurrence wins).  The
accumulator doubles as the `names` set, since a name is pushed exactly
when it is added to the set. -/
def mergeStep (acc : List String) (name : String) : List String :=
  if name ≠ "EOF" ∧ name ∉ acc then acc ++ [name] else acc

/-- The merge of the parallel symbol-table lookup results in
getCodeCompletionCandidates: every resolved list is folded into the
candidate list through `mergeStep`.  Only the symbol-derived candidate
names are modelled; the fixed operator entries are pushed outside this
loop and do not go through the `names` set. -/
def mergeSymbolNames (symbolLists : List (List String)) : List String :=
  symbolLists.foldl (fun acc symbols => symbols.foldl mergeStep acc) []

/-! ### Include/inherit filename resolution (SourceContext.resolveFilename) -/

/-- DependencySearchType from types.ts: quoted includes are Local,
angle-bracketed ones Global. -/
inductive DependencySearchType where
  | Local
  | Global
deriving DecidableEq, Repr

/-- The record resolveFilename returns: the (normalized) filename, the
full path of the first existing candidate (none when no candidate
exists), and the classified search type (none on failure). -/
structure FilenameResult where
  filename : String
  fullPath : Option String
  type : Option DependencySearchType
deriving DecidableEq, Repr

/-- External collaborators of resolveFilename: the file system
(`fs.existsSync`), the filename normalizer from utils, the workspace
root, the directory of the current file (after the URI dance), and the
configured import directories. -/
structure ResolveEnv where
  fsExists : String → Bool
  normalizeFilename : String → String
  workspaceDir : String
  basePath : String
  importDir : List String

/-- path.isAbsolute, on POSIX paths. -/
def isAbsolutePath (s : String) : Bool := s.startsWith "/"

/-- path.join, kept as plain concatenation with a separator: the claims
only compare joined paths for equality. -/
def pathJoin (a b : String) : String := a ++ "/" ++ b

/-- Modelled from the spec: utils.testFilename is not under the embedded
sources.  Per the spec it classifies the raw include text by its
delimiters, so it strips the given delimiter pair when the text is
wrapped in it and returns the text unchanged otherwise. -/
def testFilename (s l r : String) : String :=
  if s.startsWith l && s.endsWith r && decide (l.length + r.length ≤ s.length)
  then (s.drop l.length).dropRight r.length
  else s

/-- The search-type classification block of resolveFilename: a quoted
name is Local, an angle-bracketed one Global, anything else keeps the
Local default. -/
def classifyFilename (raw : String) : String × DependencySearchType :=
  let f1 := testFilename raw "\"" "\""
  if f1 ≠ raw then (f1, DependencySearchType.Local)
  else
    let f2 := testFilename raw "<" ">"
    if f2 ≠ raw then (f2, DependencySearchType.Global)
    else (raw, DependencySearchType.Local)

/-- SourceContext.resolveFilename: absolute-ize the import directories
against the file's directory, classify the raw name, normalize it,
build the search path list ([basePath, ...importDirs], reversed for a
Global name, with the workspace root appended when the normalized name
contains a separator), and return the first candidate that exists on
disk; when none exists, return the stripped name with no fullPath and no
type. -/
def resolveFilename (env : ResolveEnv) (raw : String) : FilenameResult :=
  let fullImportDirs := env.importDir.map
    (fun dir => if isAbsolutePath dir then dir else pathJoin env.basePath dir)
  let nt := classifyFilename raw
  let filenameNormed := env.normalizeFilename nt.1
  let searchPaths0 := env.basePath :: fullImportDirs
  let searchPaths1 :=
    if nt.2 = DependencySearchType.Global then searchPaths0.reverse else searchPaths0
  let searchPaths :=
    if filenameNormed.contains '/' then searchPaths1 ++ [env.workspaceDir] else searchPaths1
  match searchPaths.find? (fun p => env.fsExists (pathJoin p filenameNormed)) with
  | some p =>
      { filename := filenameNormed
        fullPath := some (pathJoin p filenameNormed)
        type := some nt.2 }
  | none => { filename := nt.1, fullPath := none, type := none }

/-- The search order exactly as the specification words it: for a local
name the file's directory followed by the import directories in order;
for a global name the reverse of that list; when the normalized name
contains a path separator the workspace root is appended as a final
fallback. -/
def specSearchOrder (env : ResolveEnv) (ft : DependencySearchType)
    (normed : String) : List String :=
  let locals := env.basePath :: env.importDir.map
    (fun dir => if isAbsolutePath dir then dir else pathJoin env.basePath dir)
  let dirs :=
    match ft with
    | DependencySearchType.Local => locals
    | DependencySearchType.Global => locals.reverse
  if normed.contains '/' then dirs ++ [env.workspaceDir] else dirs

/-- resolveFilename as the specification describes it: classify, search
the directories in `specSearchOrder`, return the first existing path, or
a result with no fullPath when none exists. -/
def resolveFilenameSpec (env : ResolveEnv) (raw : String) : FilenameResult :=
  let nt := classifyFilename raw
  let normed := env.normalizeFilename nt.1
  match (specSearchOrder env nt.2 normed).find?
      (fun p => env.fsExists (pathJoin p normed)) with
  | some p =>
      { filename := normed, fullPath := some (pathJoin p normed), type := some nt.2 }
  | none => { filename := nt.1, fullPath := none, type := none }

/-! ### The reference mesh (SourceContext.addAsReferenceTo,
getReferences, getReferenceCount; symbol tables and resolution) -/

/-- The global state of the mesh of SourceContexts, identified by ids.
`references x` embeds `SourceContext.references` of context x (the
contexts referencing x); `deps x` the dependency list of x's symbol
table (antlr4-c3 stores dependencies as a set, in addition order);
`declared x` the top-level names declared in x's table; `tableCount x s`
embeds `ContextSymbolTable.getReferenceCount(s)` of x's own table, a
leaf count outside the embedded sources. -/
structure MeshState where
  references : Nat → List Nat
  deps : Nat → List Nat
  declared : Nat → List String
  tableCount : Nat → String → Nat

/-- The breadth-first pipeline scan at the top of addAsReferenceTo: the
pipeline starts at [context]; shift the head, return true as soon as
`this` (`a`) occurs in the current context's references, otherwise push
the current context's references and continue; an exhausted pipeline
yields false.  The source loop carries no visited set, so fuel bounds
it; `none` is fuel exhaustion. -/
def bfsFind (refs : Nat → List Nat) (a : Nat) : Nat → List Nat → Option Bool
  | _, [] => some false
  | 0, _ :: _ => none
  | fuel + 1, current :: rest =>
      if a ∈ refs current then some true
      else bfsFind refs a fuel (rest ++ refs current)

/-- antlr4-c3 SymbolTable.addDependencies stores dependencies in a Set:
adding an already-present dependency is a no-op, a new one is appended. -/
def addDep (l : List Nat) (b : Nat) : List Nat :=
  if b ∈ l then l else l ++ [b]

/-- The mutation half of addAsReferenceTo, performed when the scan did
not find `a`: push `a` onto `context.references`
(`context.references.push(this)`) and, when addSymbolTable is set, add
b's symbol table to a's table dependencies
(`this.symbolTable.addDependencies(context.symbolTable)`). -/
def registerReference (w : MeshState) (a b : Nat) (addSymbolTable : Bool) : MeshState :=
  let w1 : MeshState :=
    { w with references := fun x => if x = b then w.references x ++ [a] else w.references x }
  if addSymbolTable then
    { w1 with deps := fun x => if x = a then addDep (w.deps x) b else w.deps x }
  else w1

/-- SourceContext.addAsReferenceTo (this = a, context = b): scan b's
inbound reference closure for a; when found, return with no change at
all; otherwise register the edge and the table dependency. -/
def addAsReferenceTo (fuel : Nat) (w : MeshState) (a b : Nat)
    (addSymbolTable : Bool) : Option MeshState :=
  match bfsFind w.references a fuel [b] with
  | none => none
  | some true => some w
  | some false => some (registerReference w a b addSymbolTable)

/-- n successive calls of a.addAsReferenceTo(b). -/
def iterateAdd (fuel a b : Nat) (addSymbolTable : Bool) :
    Nat → MeshState → Option MeshState
  | 0, w => some w
  | n + 1, w =>
      match addAsReferenceTo fuel w a b addSymbolTable with
      | none => none
      | some w1 => iterateAdd fuel a b addSymbolTable n w1

/-- The summation loop of getReferenceCount
(`for (const reference of this.references) result += reference.getReferenceCount(symbol)`),
with `g` the recursive call; `none` propagates fuel exhaustion. -/
def sumRefCounts (g : Nat → Option Nat) : Option Nat → List Nat → Option Nat
  | none, _ => none
  | some n, [] => some n
  | some n, r :: t =>
      match g r with
      | some m => sumRefCounts g (some (n + m)) t
      | none => none

/-- SourceContext.getReferenceCount: the own table's count plus,
recursively, the count of every context referencing this one.  The
source recursion is unbounded on cyclic meshes, so fuel bounds it. -/
def getReferenceCount (w : MeshState) : Nat → Nat → String → Option Nat
  | 0, _, _ => none
  | fuel + 1, x, s =>
      sumRefCounts (fun r => getReferenceCount w fuel r s)
        (some (w.tableCount x s)) (w.references x)

/-- Modelled from the spec: ContextSymbolTable.resolveSync (used by
SourceContext.resolveSymbol) is not under the embedded sources.  Per the
spec it searches the table's own symbols first, then each dependency
table in addition order, skipping tables already visited in the current
resolution.  Worklist formulation: process the head table unless
visited; a hit on its own declared names succeeds; otherwise enqueue its
dependencies.  Fuel bounds the traversal. -/
def resolveGo (w : MeshState) (name : String) : Nat → List Nat → List Nat → Bool
  | 0, _, _ => false
  | _ + 1, _, [] => false
  | fuel + 1, visited, t :: rest =>
      if t ∈ visited then resolveGo w name fuel visited rest
      else if name ∈ w.declared t then true
      else resolveGo w name fuel (t :: visited) (rest ++ w.deps t)

/-- SourceContext.resolveSymbol: resolve a name starting from x's own
symbol table. -/
def resolveSymbol (w : MeshState) (x : Nat) (name : String) (fuel : Nat) : Bool :=
  resolveGo w name fuel [] [x]

/-- The empty mesh: no edges, no dependencies, no declarations. -/
def meshEmpty : MeshState :=
  { references := fun _ => []
    deps := fun _ => []
    declared := fun _ => []
    tableCount := fun _ _ => 0 }

/-- Mesh after unit 0 calls addAsReferenceTo(unit 2) on the empty mesh. -/
def c4stepOne : MeshState := (addAsReferenceTo 5 meshEmpty 0 2 true).getD meshEmpty

/-- Mesh after unit 2 then calls addAsReferenceTo(unit 1). -/
def c4stepTwo : MeshState := (addAsReferenceTo 5 c4stepOne 2 1 true).getD meshEmpty

/-- Mesh after two successive calls of 0.addAsReferenceTo(1) on the
empty mesh. -/
def c4iterTwo : MeshState := (iterateAdd 2 0 1 true 2 meshEmpty).getD meshEmpty

/-- A three-unit mesh: unit 0 references unit 1 (0 ∈ references 1), unit
1 references unit 2, and the name "n" has one counted use in unit 1's
own table. -/
def c1w : MeshState :=
  { references := fun x => if x = 1 then [0] else if x = 2 then [1] else []
    deps := fun _ => []
    declared := fun _ => []
    tableCount := fun x s => if x = 1 ∧ s = "n" then 1 else 0 }

/-- A fresh two-unit mesh in which unit 1 declares the top-level name
"foo". -/
def c3start : MeshState :=
  { references := fun _ => []
    deps := fun _ => []
    declared := fun x => if x = 1 then ["foo"] else []
    tableCount := fun _ _ => 0 }

/-- Mesh after 0.addAsReferenceTo(1, true) on `c3start`. -/
def c3after : MeshState := (addAsReferenceTo 3 c3start 0 1 true).getD c3start

/-! ### Arrow-expression evaluation (ArrowSymbol.eval / evalStruct /
evalCallOther / loadObject) -/

/-- The classification an Arrow expression resolves to (ArrowType in
arrowSymbol.ts). -/
inductive ArrowType where
  | CallOther
  | StructMember
deriving DecidableEq, Repr

/-- The runtime value of the evaluated source operand: a path string, an
ObjectReferenceInfo carrying a loaded context, or anything else. -/
inductive SrcVal where
  | str (s : String)
  | objRef (ctx : Nat)
  | other
deriving DecidableEq, Repr

/-- A StackValue as evalCallOther consumes it: `typeName` embeds
`srcValue?.type?.name`, `value` embeds `srcValue?.value`. -/
structure StackValue where
  typeName : Option String
  value : SrcVal
deriving DecidableEq, Repr

/-- The fields of an ArrowSymbol that eval reads: the already-evaluated
source value (`this.source.eval(stack)`, none when it evaluates to
undefined); the target with the value its own eval would yield
(`this.target` / `this.target?.eval(stack)`, outer none = no target);
the presence of a method invocation; and the cached functionName. -/
structure ArrowExpr where
  srcValue : Option StackValue
  target : Option (Option String)
  hasMethodInvocation : Bool
  functionName : Option String
deriving DecidableEq, Repr

/-- External collaborators of arrow evaluation: the facade's loadLpc
(composed with filenameToAbsolutePath/normalizeFilename, abstracted into
one lookup on the raw source string), the resolved object's
`symbolTable.getFunction` (by optional name), and the abstract result of
evaluating the callee's body. -/
structure EvalEnv where
  loadLpc : String → Option Nat
  getFunction : Nat → Option String → Option String
  callResult : Nat → String → Option Nat

/-- Observable effects of one arrow evaluation: the diagnostics added,
whether an object load was attempted, whether the function lookup on the
resolved table ran, whether a stack frame was pushed, and the returned
value (none = the source returns undefined / no value). -/
structure ArrowTrace where
  diagnostics : List Diag
  loadAttempted : Bool
  functionLookup : Bool
  framePushed : Bool
  result : Option Nat
deriving DecidableEq, Repr

/-- A single-quote character as a string, for building the exact
diagnostic message texts. -/
def squote : String := String.singleton (Char.ofNat 39)

/-- The exact message of the failed-lookup diagnostic in evalCallOther:
Function (quote)(name or empty)(quote) may be undefined. -/
def undefinedFunctionMessage (fn : Option String) : String :=
  "Function " ++ squote ++ fn.getD "" ++ squote ++ " may be undefined"

/-- ArrowSymbol.loadObject: ask the backend to load the named file; on
failure add a warning diagnostic naming the file; on success the mesh
edge is registered.  Returns the loaded context and the diagnostics
added. -/
def loadObject (env : EvalEnv) (filename : String) : Option Nat × List Diag :=
  match env.loadLpc filename with
  | none => (none, [⟨"could not load source for: " ++ filename, Severity.warning⟩])
  | some ctx => (some ctx, [])

/-- The tail of evalCallOther after the object dispatch: re-evaluate the
function name when unset or the "#fn" placeholder
(`this.target?.eval(stack)`); look the function up in the resolved
object's table (`this.objContext?.symbolTable` — skipped when there is
no context); on a missed lookup add the may-be-undefined error and
return no value; on success evaluate the arguments, push the temporary
frame, evaluate the callee and pop. -/
def finishCallOther (env : EvalEnv) (arrow : ArrowExpr) (diags : List Diag)
    (loaded : Bool) (objContext : Option Nat) : ArrowTrace :=
  let functionName : Option String :=
    match arrow.functionName with
    | none => arrow.target.bind id
    | some f => if f = "#fn" then arrow.target.bind id else some f
  match objContext with
  | none =>
      { diagnostics := diags ++ [⟨undefinedFunctionMessage functionName, Severity.error⟩]
        loadAttempted := loaded
        functionLookup := false
        framePushed := false
        result := none }
  | some ctx =>
      match env.getFunction ctx functionName with
      | none =>
          { diagnostics := diags ++ [⟨undefinedFunctionMessage functionName, Severity.error⟩]
            loadAttempted := loaded
            functionLookup := true
            framePushed := false
            result := none }
      | some f =>
          { diagnostics := diags
            loadAttempted := loaded
            functionLookup := true
            framePushed := true
            result := env.callResult ctx f }

/-- ArrowSymbol.evalCallOther: first the two diagnostics checks (missing
target name, then missing invocation parentheses); then — even if
diagnostics fired — dispatch on `srcValue?.value`: a string triggers
loadObject, an ObjectReferenceInfo supplies its context, anything else
returns undefined with no further work. -/
def evalCallOther (env : EvalEnv) (arrow : ArrowExpr) : ArrowTrace :=
  let diags0 : List Diag :=
    if arrow.target.isNone then [⟨"Missing method name", Severity.error⟩]
    else if !arrow.hasMethodInvocation then [⟨"Missing ()", Severity.error⟩]
    else []
  match arrow.srcValue with
  | none =>
      { diagnostics := diags0, loadAttempted := false, functionLookup := false
        framePushed := false, result := none }
  | some sv =>
      match sv.value with
      | SrcVal.str s =>
          let lo := loadObject env s
          finishCallOther env arrow (diags0 ++ lo.2) true lo.1
      | SrcVal.objRef ctx => finishCallOther env arrow diags0 false (some ctx)
      | SrcVal.other =>
          { diagnostics := diags0, loadAttempted := false, functionLookup := false
            framePushed := false, result := none }

/-- ArrowSymbol.evalStruct: a missing target yields the
missing-struct-member error, an accompanying invocation the
cannot-call-methods error; member resolution is stubbed, so nothing is
loaded, looked up or pushed, and the call returns the caller's scope
(no computed value). -/
def evalStruct (arrow : ArrowExpr) : ArrowTrace :=
  let diags :=
    if arrow.target.isNone then
      [⟨"Missing struct access member name ", Severity.error⟩]
    else if arrow.hasMethodInvocation then
      [⟨"Cannot call methods on struct members", Severity.error⟩]
    else []
  { diagnostics := diags, loadAttempted := false, functionLookup := false
    framePushed := false, result := none }

/-- ArrowSymbol.eval: evaluate the source; only when its value is
statically known to be of struct type (`srcValue?.type?.name ==
"struct"`) classify as struct member access, otherwise as call other. -/
def arrowEval (env : EvalEnv) (arrow : ArrowExpr) : ArrowTrace × ArrowType :=
  if arrow.srcValue.bind StackValue.typeName = some "struct" then
    (evalStruct arrow, ArrowType.StructMember)
  else
    (evalCallOther env arrow, ArrowType.CallOther)

/-- Environment in which every load succeeds (context id 7) and every
function lookup misses. -/
def c2env : EvalEnv :=
  { loadLpc := fun _ => some 7
    getFunction := fun _ _ => none
    callResult := fun _ _ => none }

/-- An arrow expression with a loadable string source and no target
name: the shape `"obj.c"->`. -/
def c2arrow : ArrowExpr :=
  { srcValue := some ⟨none, SrcVal.str "obj.c"⟩
    target := none
    hasMethodInvocation := false
    functionName := none }

/-- Environment in which every load fails. -/
def c6env : EvalEnv :=
  { loadLpc := fun _ => none
    getFunction := fun _ _ => none
    callResult := fun _ _ => none }

/-- The arrow expression `"missing.c"->foo()`. -/
def c6arrow : ArrowExpr :=
  { srcValue := some ⟨none, SrcVal.str "missing.c"⟩
    target := some (some "foo")
    hasMethodInvocation := true
    functionName := none }

/-- Inert environment for the struct branch (nothing is consulted
there). -/
def c7env : EvalEnv :=
  { loadLpc := fun _ => none
    getFunction := fun _ _ => none
    callResult := fun _ _ => none }

/-- An arrow expression whose source value is of struct type and which
has no target: the shape `s->` with `s` a struct. -/
def c7arrow : ArrowExpr :=
  { srcValue := some ⟨some "struct", SrcVal.other⟩
    target := none
    hasMethodInvocation := false
    functionName := none }

/-! ## Theorems -/

/-! ### Helper lemmas -/

lemma mergeStep_inv {acc : List String} (h : "EOF" ∉ acc ∧ acc.Nodup) (name : String) :
    "EOF" ∉ mergeStep acc name ∧ (mergeStep acc name).Nodup := by
  unfold mergeStep
  by_cases hc : name ≠ "EOF" ∧ name ∉ acc
  · rw [if_pos hc]
    refine ⟨?_, ?_⟩
    · intro hmem
      rcases List.mem_append.mp hmem with h1 | h2
      · exact h.1 h1
      · exact hc.1 (List.mem_singleton.mp h2).symm
    · exact h.2.append (List.nodup_singleton name) (List.disjoint_singleton.mpr hc.2)
  · rw [if_neg hc]; exact h

lemma foldl_mergeStep_inv (symbols : List String) :
    ∀ acc : List String, "EOF" ∉ acc ∧ acc.Nodup →
      "EOF" ∉ symbols.foldl mergeStep acc ∧ (symbols.foldl mergeStep acc).Nodup := by
  induction symbols with
  | nil => intro acc h; exact h
  | cons a t ih => intro acc h; exact ih (mergeStep acc a) (mergeStep_inv h a)

lemma foldl_lists_inv (symbolLists : List (List String)) :
    ∀ acc : List String, "EOF" ∉ acc ∧ acc.Nodup →
      "EOF" ∉ symbolLists.foldl (fun acc symbols => symbols.foldl mergeStep acc) acc ∧
      (symbolLists.foldl (fun acc symbols => symbols.foldl mergeStep acc) acc).Nodup := by
  induction symbolLists with
  | nil => intro acc h; exact h
  | cons l t ih => intro acc h; exact ih (l.foldl mergeStep acc) (foldl_mergeStep_inv l acc h)

/-! ### Claim theorems: parsing and completion -/

/-- C9: parse() first attempts the fast (SLL) prediction strategy; a
successful first run is returned as is; whenever the first run aborts
with the recognized ambiguity-abort signal the same input is re-parsed
with the exhaustive (LL) strategy, so that — the exhaustive run
succeeding — a parse tree is still produced and the abort is not
surfaced; any other exception propagates to the caller. -/
theorem parseWithRetry_spec (attempt : PredictionMode → Except ParseAbort Nat) :
    (∀ t, attempt PredictionMode.SLL = Except.ok t →
      parseWithRetry attempt = Except.ok t) ∧
    (attempt PredictionMode.SLL = Except.error ParseAbort.cancellation →
      parseWithRetry attempt = attempt PredictionMode.LL) ∧
    (attempt PredictionMode.SLL = Except.error ParseAbort.other →
      parseWithRetry attempt = Except.error ParseAbort.other) ∧
    (∀ t, attempt PredictionMode.SLL = Except.error ParseAbort.cancellation →
      attempt PredictionMode.LL = Except.ok t →
      parseWithRetry attempt = Except.ok t) := by
  refine ⟨?_, ?_, ?_, ?_⟩
  · intro t h; unfold parseWithRetry; rw [h]
  · intro h; unfold parseWithRetry; rw [h]
  · intro h; unfold parseWithRetry; rw [h]
  · intro t h1 h2; unfold parseWithRetry; rw [h1, h2]

/-- Witness for C9: a first run aborting with the ambiguity signal is
retried and yields the exhaustive run's tree; a first run failing with
another exception propagates it. -/
theorem parseWithRetry_spec_witness :
    parseWithRetry c9attemptA = Except.ok 5 ∧
    parseWithRetry c9attemptB = Except.error ParseAbort.other :=
  ⟨(parseWithRetry_spec c9attemptA).2.2.2 5 rfl rfl,
   (parseWithRetry_spec c9attemptB).2.2.1 rfl⟩

/-- C8: parse() always repopulates the diagnostics list from scratch
(independently of the previous state) and resets the
semantic-analysis-done flag; after a parse, the first getDiagnostics
call runs the semantic walk exactly once (appending its diagnostics),
and runSemanticAnalysisIfNeeded is idempotent, so every further call in
the same generation returns the same diagnostics without re-running the
walk. -/
theorem parse_generation_spec (env : ParseEnv) (input : String) (s : ContextState) :
    (parse env input s).diagnostics = env.listenerDiags input ∧
    (parse env input s).semanticAnalysisDone = false ∧
    (getDiagnostics env (parse env input s)).1 =
      env.listenerDiags input ++ env.semanticDiags (env.treeOf input) ∧
    (∀ st : ContextState,
      runSemanticAnalysisIfNeeded env (runSemanticAnalysisIfNeeded env st) =
        runSemanticAnalysisIfNeeded env st) := by
  refine ⟨rfl, rfl, ?_, ?_⟩
  · simp [getDiagnostics, runSemanticAnalysisIfNeeded, parse]
  · intro st
    cases hst : st.tree with
    | none => simp [runSemanticAnalysisIfNeeded, hst]
    | some t =>
        cases hd : st.semanticAnalysisDone <;>
          simp [runSemanticAnalysisIfNeeded, hst, hd]

/-- C10: the candidate names merged from the parallel symbol-table
lookups in getCodeCompletionCandidates never include "EOF", and every
symbol-derived name appears at most once (the merged list has no
duplicates), whatever the lookup results are. -/
theorem mergeSymbolNames_spec (symbolLists : List (List String)) :
    "EOF" ∉ mergeSymbolNames symbolLists ∧ (mergeSymbolNames symbolLists).Nodup := by
  unfold mergeSymbolNames
  exact foldl_lists_inv symbolLists [] ⟨by simp, List.nodup_nil⟩

/-! ### Mesh helper lemmas -/

lemma bfsFind_cons (refs : Nat → List Nat) (a fuel current : Nat) (rest : List Nat) :
    bfsFind refs a (fuel + 1) (current :: rest) =
      if a ∈ refs current then some true
      else bfsFind refs a fuel (rest ++ refs current) := rfl

lemma mem_addDep (l : List Nat) (b : Nat) : b ∈ addDep l b := by
  unfold addDep
  by_cases h : b ∈ l
  · rw [if_pos h]; exact h
  · rw [if_neg h]; exact List.mem_append.mpr (Or.inr (List.mem_singleton.mpr rfl))

lemma registerReference_references_self (w : MeshState) (a b : Nat) (st : Bool) :
    (registerReference w a b st).references b = w.references b ++ [a] := by
  unfold registerReference
  cases st <;> simp

lemma registerReference_deps (w : MeshState) (a b : Nat) :
    (registerReference w a b true).deps a = addDep (w.deps a) b := by
  unfold registerReference
  simp

lemma registerReference_declared (w : MeshState) (a b : Nat) (st : Bool) :
    (registerReference w a b st).declared = w.declared := by
  unfold registerReference
  cases st <;> rfl

lemma addAsReferenceTo_not_found (w : MeshState) (fuel a b : Nat) (st : Bool)
    (h : bfsFind w.references a fuel [b] = some false) :
    addAsReferenceTo fuel w a b st = some (registerReference w a b st) := by
  unfold addAsReferenceTo
  rw [h]

lemma addAsReferenceTo_mem (w : MeshState) (fuel a b : Nat) (st : Bool)
    (h : a ∈ w.references b) :
    addAsReferenceTo (fuel + 1) w a b st = some w := by
  unfold addAsReferenceTo
  rw [bfsFind_cons, if_pos h]

lemma iterateAdd_succ (fuel a b : Nat) (st : Bool) (n : Nat) (w : MeshState) :
    iterateAdd fuel a b st (n + 1) w =
      match addAsReferenceTo fuel w a b st with
      | none => none
      | some w1 => iterateAdd fuel a b st n w1 := rfl

lemma iterateAdd_noop (fuel a b : Nat) (st : Bool) (w : MeshState)
    (h : a ∈ w.references b) :
    ∀ n, iterateAdd (fuel + 1) a b st n w = some w := by
  intro n
  induction n with
  | zero => rfl
  | succ k ih =>
      rw [iterateAdd_succ, addAsReferenceTo_mem w fuel a b st h]
      exact ih

lemma sumRefCounts_cons (g : Nat → Option Nat) (n0 r : Nat) (t : List Nat) :
    sumRefCounts g (some n0) (r :: t) =
      match g r with
      | some m => sumRefCounts g (some (n0 + m)) t
      | none => none := rfl

lemma sumRefCounts_le (g : Nat → Option Nat) :
    ∀ (t : List Nat) (n0 n : Nat), sumRefCounts g (some n0) t = some n → n0 ≤ n := by
  intro t
  induction t with
  | nil =>
      intro n0 n h
      have h2 : (some n0 : Option Nat) = some n := h
      exact Nat.le_of_eq (Option.some.inj h2)
  | cons r t ih =>
      intro n0 n h
      have h1 :
          (match g r with
            | some m => sumRefCounts g (some (n0 + m)) t
            | none => none) = some n := h
      cases hg : g r with
      | none => rw [hg] at h1; exact absurd h1 (by simp)
      | some m =>
          rw [hg] at h1
          have h2 : sumRefCounts g (some (n0 + m)) t = some n := h1
          exact Nat.le_trans (Nat.le_add_right n0 m) (ih (n0 + m) n h2)

lemma sumRefCounts_mem (g : Nat → Option Nat) :
    ∀ (t : List Nat) (n0 n r : Nat), r ∈ t → sumRefCounts g (some n0) t = some n →
      ∃ m, g r = some m ∧ m ≤ n := by
  intro t
  induction t with
  | nil => intro n0 n r hr _; exact absurd hr (List.not_mem_nil r)
  | cons c t ih =>
      intro n0 n r hr h
      have h1 :
          (match g c with
            | some m => sumRefCounts g (some (n0 + m)) t
            | none => none) = some n := h
      cases hg : g c with
      | none => rw [hg] at h1; exact absurd h1 (by simp)
      | some m =>
          rw [hg] at h1
          have h2 : sumRefCounts g (some (n0 + m)) t = some n := h1
          rcases List.mem_cons.mp hr with rfl | hrt
          · exact ⟨m, hg, Nat.le_trans (Nat.le_add_left m n0) (sumRefCounts_le g t _ _ h2)⟩
          · exact ih (n0 + m) n r hrt h2

lemma getReferenceCount_succ (w : MeshState) (fuel x : Nat) (s : String) :
    getReferenceCount w (fuel + 1) x s =
      sumRefCounts (fun r => getReferenceCount w fuel r s)
        (some (w.tableCount x s)) (w.references x) := rfl

lemma getReferenceCount_base_le (w : MeshState) (fuel x : Nat) (s : String) (n : Nat)
    (h : getReferenceCount w fuel x s = some n) : w.tableCount x s ≤ n := by
  cases fuel with
  | zero => exact absurd h (by simp [getReferenceCount])
  | succ f =>
      rw [getReferenceCount_succ] at h
      exact sumRefCounts_le _ _ _ _ h

lemma getReferenceCount_mem_le (w : MeshState) (fuel x : Nat) (s : String) (n r : Nat)
    (hr : r ∈ w.references x) (h : getReferenceCount w (fuel + 1) x s = some n) :
    ∃ m, getReferenceCount w fuel r s = some m ∧ m ≤ n := by
  rw [getReferenceCount_succ] at h
  exact sumRefCounts_mem _ _ _ _ _ hr h

lemma resolveGo_cons (w : MeshState) (name : String) (fuel : Nat)
    (visited : List Nat) (t : Nat) (rest : List Nat) :
    resolveGo w name (fuel + 1) visited (t :: rest) =
      if t ∈ visited then resolveGo w name fuel visited rest
      else if name ∈ w.declared t then true
      else resolveGo w name fuel (t :: visited) (rest ++ w.deps t) := rfl

lemma resolveGo_finds (w : MeshState) (name : String) :
    ∀ (l1 : List Nat) (t : Nat) (l2 visited : List Nat),
      t ∉ visited → name ∈ w.declared t →
      ∃ f, resolveGo w name f visited (l1 ++ t :: l2) = true := by
  intro l1
  induction l1 with
  | nil =>
      intro t l2 visited hv hd
      refine ⟨0 + 1, ?_⟩
      rw [List.nil_append, resolveGo_cons, if_neg hv, if_pos hd]
  | cons c l1 ih =>
      intro t l2 visited hv hd
      by_cases hc : c ∈ visited
      · obtain ⟨f, hf⟩ := ih t l2 visited hv hd
        refine ⟨f + 1, ?_⟩
        rw [List.cons_append, resolveGo_cons, if_pos hc]
        exact hf
      · by_cases hdc : name ∈ w.declared c
        · refine ⟨0 + 1, ?_⟩
          rw [List.cons_append, resolveGo_cons, if_neg hc, if_pos hdc]
        · have htc : t ∉ (c :: visited) := by
            intro hmem
            rcases List.mem_cons.mp hmem with rfl | hmem2
            · exact hdc hd
            · exact hv hmem2
          obtain ⟨f, hf⟩ := ih t (l2 ++ w.deps c) (c :: visited) htc hd
          refine ⟨f + 1, ?_⟩
          rw [List.cons_append, resolveGo_cons, if_neg hc, if_neg hdc,
            List.append_assoc, List.cons_append]
          exact hf

/-! ### Claim theorems: mesh, reference counting, filename resolution -/

/-- C1 (amended): reference counts propagate from referencing units to
the units they reference — for all Source Units A, B, C, if A references
B and B references C, then a resolving use of a name counted in A's own
table is also included in the number returned by C.getReferenceCount for
that name (the direction opposite to the claim as stated). -/
theorem getReferenceCount_transitive (w : MeshState) (fuel a b c : Nat) (s : String)
    (n : Nat) (hab : a ∈ w.references b) (hbc : b ∈ w.references c)
    (hc : getReferenceCount w fuel c s = some n) :
    w.tableCount a s ≤ n := by
  cases fuel with
  | zero => exact absurd hc (by simp [getReferenceCount])
  | succ f =>
      obtain ⟨m1, hm1, hle1⟩ := getReferenceCount_mem_le w f c s n b hbc hc
      cases f with
      | zero => exact absurd hm1 (by simp [getReferenceCount])
      | succ f2 =>
          obtain ⟨m2, hm2, hle2⟩ := getReferenceCount_mem_le w f2 b s m1 a hab hm1
          exact Nat.le_trans
            (Nat.le_trans (getReferenceCount_base_le w f2 a s m2 hm2) hle2) hle1

/-- Counterexample to C1 as stated: in `c1w`, unit 0 (A) references unit
1 (B) and unit 1 references unit 2 (C); the name "n" has one counted use
in B's own table, yet A.getReferenceCount("n") returns 0, so the use
counted in B's table is not included in A's number. -/
theorem getReferenceCount_claim_cex :
    0 ∈ c1w.references 1 ∧ 1 ∈ c1w.references 2 ∧
    c1w.tableCount 1 "n" = 1 ∧
    getReferenceCount c1w 9 0 "n" = some 0 ∧
    ¬ c1w.tableCount 1 "n" ≤ 0 := by
  refine ⟨?_, ?_, ?_, ?_, ?_⟩ <;> decide

/-- Witness for C1 (amended): in `c1w` the chain 0 → 1 → 2 exists,
C.getReferenceCount("n") = 1, and A's own table count (0) is included in
it. -/
theorem getReferenceCount_transitive_witness :
    0 ∈ c1w.references 1 ∧ 1 ∈ c1w.references 2 ∧
    getReferenceCount c1w 9 2 "n" = some 1 ∧ c1w.tableCount 0 "n" ≤ 1 :=
  ⟨by decide, by decide, by decide,
   getReferenceCount_transitive c1w 9 0 1 2 "n" 1 (by decide) (by decide) (by decide)⟩

/-- C3 (amended): after A.addAsReferenceTo(B) with mergeSymbols set and
the duplicate scan not finding A, the code calls
`this.symbolTable.addDependencies(context.symbolTable)` — registering
B's table as a dependency of A's table (not the spec's
`other.table.addDependency(this.table)`) — and as a result every
top-level name declared in B resolves successfully from within A's
table. -/
theorem addAsReferenceTo_merges (w : MeshState) (fuel a b : Nat) (w1 : MeshState)
    (name : String)
    (hscan : bfsFind w.references a fuel [b] = some false)
    (hadd : addAsReferenceTo fuel w a b true = some w1)
    (hname : name ∈ w.declared b) :
    b ∈ w1.deps a ∧ ∃ f, resolveSymbol w1 a name f = true := by
  have hw1 : w1 = registerReference w a b true := by
    rw [addAsReferenceTo_not_found w fuel a b true hscan] at hadd
    exact (Option.some.inj hadd).symm
  subst hw1
  have hdeps : (registerReference w a b true).deps a = addDep (w.deps a) b :=
    registerReference_deps w a b
  have hdecl : (registerReference w a b true).declared = w.declared :=
    registerReference_declared w a b true
  refine ⟨by rw [hdeps]; exact mem_addDep (w.deps a) b, ?_⟩
  by_cases hda : name ∈ w.declared a
  · obtain ⟨f, hf⟩ := resolveGo_finds (registerReference w a b true) name [] a [] []
      (List.not_mem_nil a) (by rw [hdecl]; exact hda)
    exact ⟨f, by simpa [resolveSymbol] using hf⟩
  · have hba : b ≠ a := by
      intro hEq
      subst hEq
      exact hda hname
    have hmemb : b ∈ (registerReference w a b true).deps a := by
      rw [hdeps]; exact mem_addDep (w.deps a) b
    obtain ⟨l1, l2, hsplit⟩ := List.append_of_mem hmemb
    have hbv : b ∉ [a] := by simp [hba]
    obtain ⟨f, hf⟩ := resolveGo_finds (registerReference w a b true) name l1 b l2 [a]
      hbv (by rw [hdecl]; exact hname)
    refine ⟨f + 1, ?_⟩
    unfold resolveSymbol
    rw [resolveGo_cons, if_neg (List.not_mem_nil a), if_neg (by rw [hdecl]; exact hda),
      List.nil_append, hsplit]
    exact hf

/-- Counterexample to C3 as stated: on `c3start` the call
0.addAsReferenceTo(1, true) leaves unit 1's table dependencies empty —
the spec's `other.table.addDependency(this.table)` is not what runs —
while unit 0's table gains unit 1's table as a dependency. -/
theorem addAsReferenceTo_direction_cex :
    addAsReferenceTo 3 c3start 0 1 true = some c3after ∧
    c3after.deps 1 = [] ∧ c3after.deps 0 = [1] :=
  ⟨rfl, rfl, rfl⟩

/-- Witness for C3 (amended): on the concrete mesh `c3start`, after
0.addAsReferenceTo(1, true) unit 1's table is a dependency of unit 0's
table and the name "foo" declared in unit 1 resolves from unit 0. -/
theorem addAsReferenceTo_merges_witness :
    1 ∈ c3after.deps 0 ∧ ∃ f, resolveSymbol c3after 0 "foo" f = true :=
  addAsReferenceTo_merges c3start 3 0 1 c3after "foo" rfl rfl (by decide)

/-- C4 (amended): for all Source Units A and B such that A is not
already (transitively) present in B's inbound reference closure — the
breadth-first scan comes back empty — after calling A.addAsReferenceTo(B)
any number of times (at least once), B.getReferences() contains A
exactly once; every call after the first finds A directly in
B.references and returns without adding. -/
theorem addAsReferenceTo_idempotent (w : MeshState) (fuel n a b : Nat) (st : Bool)
    (w1 : MeshState)
    (hcount : (w.references b).count a = 0)
    (hscan : bfsFind w.references a (fuel + 1) [b] = some false)
    (hiter : iterateAdd (fuel + 1) a b st (n + 1) w = some w1) :
    (w1.references b).count a = 1 := by
  rw [iterateAdd_succ, addAsReferenceTo_not_found w (fuel + 1) a b st hscan] at hiter
  have hiter2 : iterateAdd (fuel + 1) a b st n (registerReference w a b st) = some w1 :=
    hiter
  have hmem : a ∈ (registerReference w a b st).references b := by
    rw [registerReference_references_self]
    exact List.mem_append.mpr (Or.inr (by simp))
  rw [iterateAdd_noop fuel a b st (registerReference w a b st) hmem n] at hiter2
  have hw1 : w1 = registerReference w a b st := (Option.some.inj hiter2).symm
  subst hw1
  rw [registerReference_references_self]
  simp [List.count_append, hcount]

/-- Counterexample to C4 as stated: from the empty mesh, after
0.addAsReferenceTo(2) and 2.addAsReferenceTo(1), the call
0.addAsReferenceTo(1) is a no-op — the scan finds unit 0 transitively
(0 ∈ references 2, 2 ∈ references 1) — so getReferences() of unit 1
contains unit 0 zero times, not exactly once. -/
theorem addAsReferenceTo_transitive_cex :
    addAsReferenceTo 5 meshEmpty 0 2 true = some c4stepOne ∧
    addAsReferenceTo 5 c4stepOne 2 1 true = some c4stepTwo ∧
    addAsReferenceTo 5 c4stepTwo 0 1 true = some c4stepTwo ∧
    (c4stepTwo.references 1).count 0 = 0 :=
  ⟨rfl, rfl, rfl, rfl⟩

/-- Witness for C4 (amended): two successive calls of
0.addAsReferenceTo(1) on the empty mesh leave unit 0 exactly once in
unit 1's references. -/
theorem addAsReferenceTo_idempotent_witness :
    (meshEmpty.references 1).count 0 = 0 ∧ (c4iterTwo.references 1).count 0 = 1 :=
  ⟨rfl, addAsReferenceTo_idempotent meshEmpty 1 1 0 1 true c4iterTwo rfl rfl rfl⟩

/-- C5: resolveFilename searches candidate directories exactly in the
specified order — quoted (local) name: the file's directory then each
configured import directory in order; angle-bracketed (global) name: the
reverse of that list; a normalized name containing a path separator
appends the workspace root as a final fallback — and returns the first
existing path, or a result with no fullPath when none exists
(`resolveFilenameSpec` is that specification, stated verbatim). -/
theorem resolveFilename_spec (env : ResolveEnv) (raw : String) :
    resolveFilename env raw = resolveFilenameSpec env raw := by
  unfold resolveFilename resolveFilenameSpec specSearchOrder
  rcases hnt : classifyFilename raw with ⟨name, ft⟩
  cases ft <;> simp [hnt]

/-! ### Claim theorems: arrow evaluation -/

/-- C2 (amended): for every Arrow expression evaluated as a remote call
whose target name is absent, the first diagnostic added is the error
"Missing method name", no frame is pushed and no value is returned — but
evaluation continues best-effort: when the source value is a path string
the object load is still attempted, and the function lookup still runs
(typically adding a second "may be undefined" diagnostic), so the
missing-name diagnostic need not be the only one. -/
theorem arrowEval_missing_target (env : EvalEnv) (arrow : ArrowExpr)
    (hns : arrow.srcValue.bind StackValue.typeName ≠ some "struct")
    (htr : arrow.target = none)
    (hfn : arrow.functionName = none)
    (hlf : ∀ ctx, env.getFunction ctx none = none) :
    (arrowEval env arrow).1.diagnostics.head? =
      some ⟨"Missing method name", Severity.error⟩ ∧
    (arrowEval env arrow).1.framePushed = false ∧
    (arrowEval env arrow).1.result = none ∧
    (arrowEval env arrow).2 = ArrowType.CallOther ∧
    (∀ sv s, arrow.srcValue = some sv → sv.value = SrcVal.str s →
      (arrowEval env arrow).1.loadAttempted = true) := by
  unfold arrowEval
  rw [if_neg hns]
  cases hsv : arrow.srcValue with
  | none => simp [evalCallOther, finishCallOther, htr, hsv]
  | some sv =>
      cases hval : sv.value with
      | str s =>
          cases hl : env.loadLpc s with
          | none =>
              simp [evalCallOther, finishCallOther, loadObject, htr, hfn, hsv, hval, hl]
          | some ctx =>
              simp [evalCallOther, finishCallOther, loadObject, htr, hfn, hsv, hval,
                hl, hlf]
      | objRef ctx =>
          refine ⟨?_, ?_, ?_, ?_, ?_⟩
          · simp [evalCallOther, finishCallOther, htr, hfn, hsv, hval, hlf]
          · simp [evalCallOther, finishCallOther, htr, hfn, hsv, hval, hlf]
          · simp [evalCallOther, finishCallOther, htr, hfn, hsv, hval, hlf]
          · simp [evalCallOther, finishCallOther, htr, hfn, hsv, hval, hlf]
          · intro sv1 s hEq hstr
            injection hEq with h2
            subst h2
            rw [hval] at hstr
            exact SrcVal.noConfusion hstr
      | other =>
          refine ⟨?_, ?_, ?_, ?_, ?_⟩
          · simp [evalCallOther, finishCallOther, htr, hsv, hval]
          · simp [evalCallOther, finishCallOther, htr, hsv, hval]
          · simp [evalCallOther, finishCallOther, htr, hsv, hval]
          · simp [evalCallOther, finishCallOther, htr, hsv, hval]
          · intro sv1 s hEq hstr
            injection hEq with h2
            subst h2
            rw [hval] at hstr
            exact SrcVal.noConfusion hstr

/-- Counterexample to C2 as stated: evaluating `"obj.c"->` (no target,
loadable string source, lookup misses) produces two error diagnostics —
"Missing method name" and the may-be-undefined follow-up — and the
object load is attempted, contradicting "exactly one error diagnostic"
and "no object load". -/
theorem arrowEval_missing_target_cex :
    c2arrow.target = none ∧
    (arrowEval c2env c2arrow).2 = ArrowType.CallOther ∧
    (arrowEval c2env c2arrow).1.diagnostics =
      [⟨"Missing method name", Severity.error⟩,
       ⟨undefinedFunctionMessage none, Severity.error⟩] ∧
    (arrowEval c2env c2arrow).1.diagnostics.length = 2 ∧
    (arrowEval c2env c2arrow).1.loadAttempted = true := by
  refine ⟨rfl, rfl, ?_, ?_, ?_⟩ <;> rfl

/-- Witness for C2 (amended) at the concrete input `"obj.c"->`. -/
theorem arrowEval_missing_target_witness :
    (arrowEval c2env c2arrow).1.diagnostics.head? =
      some ⟨"Missing method name", Severity.error⟩ ∧
    (arrowEval c2env c2arrow).1.framePushed = false ∧
    (arrowEval c2env c2arrow).1.result = none :=
  ⟨(arrowEval_missing_target c2env c2arrow (by decide) rfl rfl (fun _ => rfl)).1,
   (arrowEval_missing_target c2env c2arrow (by decide) rfl rfl (fun _ => rfl)).2.1,
   (arrowEval_missing_target c2env c2arrow (by decide) rfl rfl (fun _ => rfl)).2.2.1⟩

/-- C6: for every Arrow remote call whose source value is a path string
naming a file the registry cannot load, evaluation adds a
warning-severity diagnostic whose message names the file ("could not
load source for: " + filename) and returns no value. -/
theorem arrowEval_load_failure (env : EvalEnv) (arrow : ArrowExpr) (sv : StackValue)
    (s : String)
    (hns : arrow.srcValue.bind StackValue.typeName ≠ some "struct")
    (hsv : arrow.srcValue = some sv)
    (hval : sv.value = SrcVal.str s)
    (hload : env.loadLpc s = none) :
    (⟨"could not load source for: " ++ s, Severity.warning⟩ : Diag) ∈
      (arrowEval env arrow).1.diagnostics ∧
    (arrowEval env arrow).1.result = none := by
  unfold arrowEval
  rw [if_neg hns]
  simp [evalCallOther, finishCallOther, loadObject, hsv, hval, hload]

/-- Witness for C6 at the concrete input `"missing.c"->foo()` with every
load failing. -/
theorem arrowEval_load_failure_witness :
    (⟨"could not load source for: " ++ "missing.c", Severity.warning⟩ : Diag) ∈
      (arrowEval c6env c6arrow).1.diagnostics ∧
    (arrowEval c6env c6arrow).1.result = none :=
  arrowEval_load_failure c6env c6arrow ⟨none, SrcVal.str "missing.c"⟩ "missing.c"
    (by decide) rfl rfl rfl

/-- C7 (amended): an Arrow expression whose source evaluates to a value
of struct type is classified as struct member access and handled
entirely by evalStruct: no object load, no function lookup, no frame
push; a missing target yields the error diagnostic "Missing struct
access member name " (with that exact wording, not "missing member
name") and a present method invocation yields the error diagnostic
"Cannot call methods on struct members". -/
theorem evalStruct_spec (env : EvalEnv) (arrow : ArrowExpr)
    (hstruct : arrow.srcValue.bind StackValue.typeName = some "struct") :
    (arrowEval env arrow).2 = ArrowType.StructMember ∧
    (arrowEval env arrow).1 = evalStruct arrow ∧
    (arrowEval env arrow).1.loadAttempted = false ∧
    (arrowEval env arrow).1.functionLookup = false ∧
    (arrowEval env arrow).1.framePushed = false ∧
    (arrow.target = none →
      (arrowEval env arrow).1.diagnostics =
        [⟨"Missing struct access member name ", Severity.error⟩]) ∧
    (∀ t, arrow.target = some t → arrow.hasMethodInvocation = true →
      (arrowEval env arrow).1.diagnostics =
        [⟨"Cannot call methods on struct members", Severity.error⟩]) := by
  unfold arrowEval
  rw [if_pos hstruct]
  refine ⟨rfl, rfl, rfl, rfl, rfl, ?_, ?_⟩
  · intro htr
    simp [evalStruct, htr]
  · intro t htr hinv
    simp [evalStruct, htr, hinv]

/-- Counterexample to C7 as stated: evaluating `s->` with a struct-typed
source produces the diagnostic "Missing struct access member name ",
which is not the message "missing member name" the claim states. -/
theorem evalStruct_message_cex :
    c7arrow.target = none ∧
    (arrowEval c7env c7arrow).2 = ArrowType.StructMember ∧
    (arrowEval c7env c7arrow).1.diagnostics =
      [⟨"Missing struct access member name ", Severity.error⟩] ∧
    "Missing struct access member name " ≠ "missing member name" := by
  refine ⟨rfl, rfl, rfl, ?_⟩
  decide

/-- Witness for C7 (amended) at the concrete struct-typed input with no
target. -/
theorem evalStruct_spec_witness :
    (arrowEval c7env c7arrow).2 = ArrowType.StructMember ∧
    (arrowEval c7env c7arrow).1.diagnostics =
      [⟨"Missing struct access member name ", Severity.error⟩] :=
  ⟨(evalStruct_spec c7env c7arrow rfl).1,
   (evalStruct_spec c7env c7arrow rfl).2.2.2.2.2.1 rfl⟩
